import Mathlib

/-!
Shallow embedding of the Field Stock backend (src/main.py, src/schemas.py).

Collections of the document store are modelled as Lean lists of records;
MongoDB's `update_one(filter, {"$set": ...}, upsert=True)` is modelled as a
recursive function that updates the first record matching the filter and
otherwise appends a record built from the filter's equality fields plus the
`$set` fields (pymongo's documented upsert behaviour).  Password hashing
(passlib/bcrypt) and JWT signing (python-jose) are external trusted
primitives: hashing is modelled as an injective wrapper whose verification
succeeds exactly on the hashed password, and a signed token is modelled as a
record of its payload together with the secret it was signed with; decoding
succeeds exactly when the secret matches and the token is unexpired.
`bson.ObjectId(s)` accepts exactly 24-character hex strings and raises
otherwise; the raise in `get_current_user` happens outside the try/except and
is modelled as `HErr.crash` (an unhandled exception, rendered 500 by the
framework).  Timestamps are abstract `Nat` ticks (`datetime.now` is passed as
an explicit parameter).
-/

deriving instance DecidableEq for Except

namespace FieldStock

/-- Outcome of a request handler: an HTTP error response raised via
`HTTPException(code, detail)`, or an unhandled exception (`crash`). -/
inductive HErr where
  | http (code : Nat) (detail : String)
  | crash
  deriving Repr, DecidableEq

/-- Bcrypt hash, modelled as a trusted one-way primitive: the model records
the hashed password and `verify_password` succeeds exactly on it
(collision-free idealisation of `passlib`'s CryptContext). -/
structure PwHash where
  pw : String
  deriving Repr, DecidableEq

/-- `pwd_context.verify` (src/main.py line 50). -/
def verify_password (plain : String) (hashed : PwHash) : Bool :=
  plain == hashed.pw

/-- `pwd_context.hash` (src/main.py line 54). -/
def get_password_hash (password : String) : PwHash :=
  ⟨password⟩

/-- A stored document of the `user` collection. -/
structure StoredUser where
  oid : String
  name : String
  email : String
  role : String
  password_hash : PwHash
  phone : Option String
  is_active : Bool
  deriving Repr, DecidableEq

/-- `UserPublic` response model (src/main.py lines 42-46). -/
structure UserPublic where
  id : String
  name : String
  email : String
  role : String
  deriving Repr, DecidableEq

/-- `to_public_user` (src/main.py lines 61-67). -/
def to_public_user (u : StoredUser) : UserPublic :=
  ⟨u.oid, u.name, u.email, u.role⟩

/-- `JWT_SECRET` (src/main.py line 19, default value). -/
def JWT_SECRET : String := "dev-secret-change"

/-- `ACCESS_TOKEN_EXPIRE_MINUTES` (src/main.py line 21). -/
def ACCESS_TOKEN_EXPIRE_MINUTES : Nat := 60 * 24

/-- A bearer token as seen by `jose.jwt`: either garbage that does not decode
at all, or a signed token with an optional `sub` claim, an `exp` claim and
the secret it was signed with. -/
inductive Token where
  | malformed
  | signed (sub : Option String) (exp : Nat) (secret : String)
  deriving Repr, DecidableEq

/-- `jwt.decode(token, secret, algorithms=[HS256])`: returns the payload's
`sub` claim when the signature matches `secret` and the token is unexpired,
and fails (raises `JWTError`) otherwise. -/
def jwtDecode (tok : Token) (secret : String) (now : Nat) : Option (Option String) :=
  match tok with
  | .malformed => none
  | .signed sub exp s => if s = secret ∧ now < exp then some sub else none

/-- `create_access_token({"sub": sub})` (src/main.py lines 79-84): expiry is
`now` plus the default lifetime, signed with `JWT_SECRET`. -/
def create_access_token (sub : String) (now : Nat) : Token :=
  .signed (some sub) (now + 60 * ACCESS_TOKEN_EXPIRE_MINUTES) JWT_SECRET

/-- Hex-digit test used by `bson.ObjectId` validity. -/
def isHexChar (c : Char) : Bool :=
  (Char.ofNat 48 ≤ c && c ≤ Char.ofNat 57)
    || (Char.ofNat 97 ≤ c && c ≤ Char.ofNat 102)
    || (Char.ofNat 65 ≤ c && c ≤ Char.ofNat 70)

/-- `bson.ObjectId(s)` succeeds exactly on 24-character hex strings and
raises `InvalidId` otherwise (documented behaviour of the bson library). -/
def isValidObjectId (s : String) : Bool :=
  s.length == 24 && s.data.all isHexChar

/-- `find_one({"email": e})` on the `user` collection: first user with the
given email. -/
def findUserByEmail (e : String) : List StoredUser → Option StoredUser
  | [] => none
  | u :: us => if u.email = e then some u else findUserByEmail e us

/-- `find_one({"_id": ObjectId(i)})` on the `user` collection: first user
with the given id. -/
def findUserById (i : String) : List StoredUser → Option StoredUser
  | [] => none
  | u :: us => if u.oid = i then some u else findUserById i us

/-- Number of stored users with a given email. -/
def countUsersByEmail (e : String) : List StoredUser → Nat
  | [] => 0
  | u :: us => (if u.email = e then 1 else 0) + countUsersByEmail e us

/-- `credentials_exception` (src/main.py line 88). -/
def credentials_exception : HErr :=
  .http 401 "Could not validate credentials"

/-- `get_current_user` (src/main.py lines 87-99).  The try/except maps any
decode failure or missing `sub` to `credentials_exception`; the
`ObjectId(user_id)` call sits outside the try block, so a non-ObjectId
subject raises an unhandled exception, modelled as `HErr.crash`. -/
def get_current_user (tok : Token) (now : Nat) (users : List StoredUser) :
    Except HErr StoredUser :=
  match jwtDecode tok JWT_SECRET now with
  | none => .error credentials_exception
  | some none => .error credentials_exception
  | some (some uid) =>
    if isValidObjectId uid then
      match findUserById uid users with
      | some u => .ok u
      | none => .error credentials_exception
    else .error HErr.crash

/-- The `User` pydantic schema used as registration input (src/schemas.py
lines 10-16); the `password_hash` field carries the plaintext password at
registration time (src/main.py line 109 pops and hashes it). -/
structure RegisterInput where
  name : String
  email : String
  role : String
  password_hash : String
  phone : Option String
  is_active : Bool
  deriving Repr, DecidableEq

/-- The user document inserted by `register`: input fields with the
password replaced by its hash, under a freshly generated id.
`create_document` (database.py, not under src/) is modelled from the spec:
the document-store adapter exposes a collection-scoped insert returning the
new document's id. -/
def mkUser (inp : RegisterInput) (newId : String) : StoredUser :=
  ⟨newId, inp.name, inp.email, inp.role, get_password_hash inp.password_hash,
    inp.phone, inp.is_active⟩

/-- The duplicate-email failure of `register` (src/main.py line 107); the
spec's error taxonomy names this duplicate-unique-key failure `Conflict` and
renders it as HTTP 400 at the boundary (spec section 6 table). -/
def conflictEmailExists : HErr :=
  .http 400 "Email already registered"

/-- `register` (src/main.py lines 103-112): duplicate-email check, insert,
re-read by the new id, public view.  Returns the response together with the
resulting `user` collection. -/
def register (inp : RegisterInput) (newId : String) (users : List StoredUser) :
    Except HErr UserPublic × List StoredUser :=
  if (findUserByEmail inp.email users).isSome then
    (.error conflictEmailExists, users)
  else
    let created := mkUser inp newId
    let users1 := users ++ [created]
    match findUserById newId users1 with
    | some c => (.ok (to_public_user c), users1)
    | none => (.error HErr.crash, users1)

/-- `authenticate_user` (src/main.py lines 70-76). -/
def authenticate_user (email password : String) (users : List StoredUser) :
    Option StoredUser :=
  match findUserByEmail email users with
  | none => none
  | some u => if verify_password password u.password_hash then some u else none

/-- `login` (src/main.py lines 115-121). -/
def login (email password : String) (now : Nat) (users : List StoredUser) :
    Except HErr Token :=
  match authenticate_user email password users with
  | none => .error (.http 400 "Incorrect email or password")
  | some u => .ok (create_access_token u.oid now)

/-- The `/auth/me` route (src/main.py lines 124-126): auth middleware then
public view. -/
def me_route (tok : Token) (now : Nat) (users : List StoredUser) :
    Except HErr UserPublic :=
  match get_current_user tok now users with
  | .error e => .error e
  | .ok u => .ok (to_public_user u)

/-- A product candidate extracted by `parse_products_from_html`
(src/main.py lines 135-158): a `{sku, name}` pair.  The extraction itself is
deterministic in the page text, so identical page content yields the same
item sequence. -/
structure ScrapedItem where
  sku : String
  name : String
  deriving Repr, DecidableEq

/-- A stored document of the `inventoryitem` collection.  `extra` holds any
stored fields not touched by the scrape upsert's `$set` (description, unit,
price, ...), which `$set` leaves unchanged. -/
structure InvRec where
  sku : String
  name : String
  supplier : String
  active : Bool
  updated_at : Nat
  extra : List (String × String)
  deriving Repr, DecidableEq

/-- The `$set` document of the scrape upsert (src/main.py lines 177-183)
applied to an existing record: overwrites sku, name, supplier, active and
updated_at, leaves other stored fields alone. -/
def setInv (it : ScrapedItem) (t : Nat) (r : InvRec) : InvRec :=
  ⟨it.sku, it.name, "mijninstallatiepartner", true, t, r.extra⟩

/-- The document inserted when the scrape upsert finds no record with the
given sku: the filter's sku plus the `$set` fields. -/
def mkInv (it : ScrapedItem) (t : Nat) : InvRec :=
  ⟨it.sku, it.name, "mijninstallatiepartner", true, t, []⟩

/-- `db["inventoryitem"].update_one({"sku": ...}, {"$set": ...}, upsert=True)`
(src/main.py lines 177-183): update the first record with the item's sku,
else append a new one. -/
def upsertInv (it : ScrapedItem) (t : Nat) : List InvRec → List InvRec
  | [] => [mkInv it t]
  | r :: rs => if r.sku = it.sku then setInv it t r :: rs else r :: upsertInv it t rs

/-- The upsert loop of `inventory_scrape` (src/main.py lines 175-184) over an
already-truncated product list. -/
def syncProducts (items : List ScrapedItem) (t : Nat) (cat : List InvRec) :
    List InvRec :=
  items.foldl (fun c it => upsertInv it t c) cat

/-- Whether some record of the catalog carries the given sku. -/
def hasSku (s : String) : List InvRec → Bool
  | [] => false
  | r :: rs => r.sku == s || hasSku s rs

/-- Erase the server-side `updated_at` timestamp of a record. -/
def stripInvRec (r : InvRec) : InvRec :=
  ⟨r.sku, r.name, r.supplier, r.active, 0, r.extra⟩

/-- Erase all `updated_at` timestamps of a catalog. -/
def stripCat (cat : List InvRec) : List InvRec :=
  cat.map stripInvRec

/-- The first record carrying the item's sku exists and is a fixed point of
the item's `$set` at timestamp `t` — exactly the situation in which the
upsert for that item is a no-op. -/
def FixedFor (i : ScrapedItem) (t : Nat) : List InvRec → Prop
  | [] => False
  | r :: rs => if r.sku = i.sku then setInv i t r = r else FixedFor i t rs

/-- Outcome of `requests.get(params.url, ...)` as consumed by the handler:
either the request raised (network failure), or it produced a response with
a status code and a body whose parse by `parse_products_from_html` either
raises (`none`) or yields an item list (`some`). -/
inductive FetchOutcome where
  | netError
  | response (status : Nat) (parsed : Option (List ScrapedItem))
  deriving Repr, DecidableEq

/-- `inventory_scrape` (src/main.py lines 161-185): office-only role check;
non-200 status raises 400 "Cannot fetch supplier page"; a network failure or
a parse failure is caught and raises 400 "Failed to parse supplier page";
on success the first `max_items` products are upserted by sku and their
count returned.  Returns the response together with the resulting
`inventoryitem` collection. -/
def inventory_scrape (caller : StoredUser) (maxItems : Nat) (fo : FetchOutcome)
    (t : Nat) (cat : List InvRec) :
    Except HErr (String × Nat) × List InvRec :=
  if caller.role ≠ "office" then
    (.error (.http 403 "Only office can sync inventory"), cat)
  else
    match fo with
    | .netError => (.error (.http 400 "Failed to parse supplier page"), cat)
    | .response status parsed =>
      if status ≠ 200 then (.error (.http 400 "Cannot fetch supplier page"), cat)
      else
        match parsed with
        | none => (.error (.http 400 "Failed to parse supplier page"), cat)
        | some items =>
          let its := items.take maxItems
          (.ok ("ok", its.length), syncProducts its t cat)

/-- A stored document of the `technicianstock` collection
(schema: src/schemas.py lines 29-32). -/
structure StockRow where
  user_id : String
  sku : String
  quantity : Int
  updated_at : Nat
  deriving Repr, DecidableEq

/-- `db["technicianstock"].update_one({"user_id": u, "sku": s},
{"$set": {"quantity": max(0, q), "updated_at": now}}, upsert=True)`
(src/main.py lines 208-212). -/
def upsertStock (uid sku : String) (q : Int) (t : Nat) :
    List StockRow → List StockRow
  | [] => [⟨uid, sku, max 0 q, t⟩]
  | r :: rs =>
    if r.user_id = uid ∧ r.sku = sku then
      ⟨r.user_id, r.sku, max 0 q, t⟩ :: rs
    else r :: upsertStock uid sku q t rs

/-- First stock row for a (user id, sku) pair, as `find_one` would return. -/
def findStock (uid sku : String) : List StockRow → Option StockRow
  | [] => none
  | r :: rs => if r.user_id = uid ∧ r.sku = sku then some r else findStock uid sku rs

/-- Number of stock rows stored for a (user id, sku) pair. -/
def countStock (uid sku : String) : List StockRow → Nat
  | [] => 0
  | r :: rs =>
    (if r.user_id = uid ∧ r.sku = sku then 1 else 0) + countStock uid sku rs

/-- `update_stock` (src/main.py lines 204-213): technician-only role check,
then clamped upsert by (caller id, sku).  Returns the response together with
the resulting `technicianstock` collection. -/
def update_stock (caller : StoredUser) (sku : String) (q : Int) (t : Nat)
    (stock : List StockRow) : Except HErr String × List StockRow :=
  if caller.role ≠ "technician" then
    (.error (.http 403 "Only technicians can update their stock"), stock)
  else
    (.ok "ok", upsertStock caller.oid sku q t stock)

/-- `my_stock` (src/main.py lines 194-201): technician-only role check, then
the caller's own rows. -/
def my_stock (caller : StoredUser) (stock : List StockRow) :
    Except HErr (List StockRow) × List StockRow :=
  if caller.role ≠ "technician" then
    (.error (.http 403 "Only technicians have personal stock"), stock)
  else
    (.ok (stock.filter (fun r => r.user_id == caller.oid)), stock)

/-- `stock_overview` (src/main.py lines 216-229): office-only role check,
then all rows. -/
def stock_overview (caller : StoredUser) (stock : List StockRow) :
    Except HErr (List StockRow) × List StockRow :=
  if caller.role ≠ "office" then
    (.error (.http 403 "Only office can view all technicians' stock"), stock)
  else
    (.ok stock, stock)

/-- Last element of a call sequence. -/
def lastCall : List (Int × Nat) → Option (Int × Nat)
  | [] => none
  | [c] => some c
  | _ :: c :: cs => lastCall (c :: cs)

/-- A sequence of `update_stock` requests by the same caller for the same
sku, threading the stored collection through. -/
def runStockUpdates (caller : StoredUser) (sku : String)
    (calls : List (Int × Nat)) (stock : List StockRow) : List StockRow :=
  calls.foldl (fun s c => (update_stock caller sku c.1 c.2 s).2) stock

/-- A stored document of the `workorder` collection.  `technician_id` and
`external_ref` are optional here because the webhook's insert path creates
documents without them (the schemaless store does not enforce the pydantic
model). -/
structure WorkOrderRec where
  order_id : String
  technician_id : Option String
  status : String
  completed_at : Option String
  external_ref : Option String
  deriving Repr, DecidableEq

/-- The `WorkOrder` pydantic schema (src/schemas.py lines 35-39) as a
validity predicate on stored documents: `technician_id` is a required field
and `status` is the literal "open" or "completed". -/
def workOrderSchemaOk (r : WorkOrderRec) : Bool :=
  r.technician_id.isSome && (r.status == "open" || r.status == "completed")

/-- `RouteCompletion` webhook payload (src/main.py lines 233-237). -/
structure RouteCompletion where
  order_id : String
  technician_email : Option String
  status : String
  completed_at : Option String
  deriving Repr, DecidableEq

/-- Python's `x or d` over an optional string: `None` and the empty string
are falsy, so both fall back to the default. -/
def orDefault (v : Option String) (d : String) : String :=
  match v with
  | none => d
  | some s => if s = "" then d else s

/-- The `$set` document of the webhook upsert (src/main.py line 244) applied
to an existing record: only `status` and `completed_at` change. -/
def setWO (doneAt : String) (r : WorkOrderRec) : WorkOrderRec :=
  ⟨r.order_id, r.technician_id, "completed", some doneAt, r.external_ref⟩

/-- The document inserted when the webhook upsert finds no record with the
given order id: the filter's `order_id` plus the `$set` fields; no
`technician_id`, no `external_ref`. -/
def mkWO (orderId doneAt : String) : WorkOrderRec :=
  ⟨orderId, none, "completed", some doneAt, none⟩

/-- `db["workorder"].update_one({"order_id": ...}, {"$set": ...},
upsert=True)` (src/main.py lines 242-246). -/
def upsertWO (orderId doneAt : String) : List WorkOrderRec → List WorkOrderRec
  | [] => [mkWO orderId doneAt]
  | r :: rs =>
    if r.order_id = orderId then setWO doneAt r :: rs
    else r :: upsertWO orderId doneAt rs

/-- First work order stored under a given order id. -/
def findWO (orderId : String) : List WorkOrderRec → Option WorkOrderRec
  | [] => none
  | r :: rs => if r.order_id = orderId then some r else findWO orderId rs

/-- Number of work orders stored under a given order id. -/
def countWO (orderId : String) : List WorkOrderRec → Nat
  | [] => 0
  | r :: rs => (if r.order_id = orderId then 1 else 0) + countWO orderId rs

/-- Whether some work order carries the given order id. -/
def hasWO (orderId : String) : List WorkOrderRec → Bool
  | [] => false
  | r :: rs => r.order_id == orderId || hasWO orderId rs

/-- `optimoroute_webhook` (src/main.py lines 240-247): unauthenticated upsert
by order id; `completed_at` is the payload value if truthy, else the current
server time in ISO form (passed here as `nowIso`); always answers ok. -/
def optimoroute_webhook (p : RouteCompletion) (nowIso : String)
    (wos : List WorkOrderRec) : Except HErr String × List WorkOrderRec :=
  (.ok "ok", upsertWO p.order_id (orDefault p.completed_at nowIso) wos)

/-- The fields of a work order that the webhook's `$set` never touches
(plus the identifying `order_id`). -/
def woView (r : WorkOrderRec) : String × Option String × Option String :=
  (r.order_id, r.technician_id, r.external_ref)

/-- The `/inventory/scrape` route (src/main.py lines 161-185) including the
auth middleware. -/
def inventory_scrape_route (tok : Token) (now : Nat) (users : List StoredUser)
    (maxItems : Nat) (fo : FetchOutcome) (t : Nat) (cat : List InvRec) :
    Except HErr (String × Nat) × List InvRec :=
  match get_current_user tok now users with
  | .error e => (.error e, cat)
  | .ok u => inventory_scrape u maxItems fo t cat

/-- The `/stock/mine` route (src/main.py lines 194-201) including the auth
middleware. -/
def my_stock_route (tok : Token) (now : Nat) (users : List StoredUser)
    (stock : List StockRow) : Except HErr (List StockRow) × List StockRow :=
  match get_current_user tok now users with
  | .error e => (.error e, stock)
  | .ok u => my_stock u stock

/-- The `/stock/update` route (src/main.py lines 204-213) including the auth
middleware. -/
def update_stock_route (tok : Token) (now : Nat) (users : List StoredUser)
    (sku : String) (q : Int) (t : Nat) (stock : List StockRow) :
    Except HErr String × List StockRow :=
  match get_current_user tok now users with
  | .error e => (.error e, stock)
  | .ok u => update_stock u sku q t stock

/-- The `/stock/overview` route (src/main.py lines 216-229) including the
auth middleware. -/
def stock_overview_route (tok : Token) (now : Nat) (users : List StoredUser)
    (stock : List StockRow) : Except HErr (List StockRow) × List StockRow :=
  match get_current_user tok now users with
  | .error e => (.error e, stock)
  | .ok u => stock_overview u stock

/-- A concrete technician user with a well-formed ObjectId, for concrete
instantiations. -/
def techUser : StoredUser :=
  ⟨"0123456789abcdef01234567", "Alice", "alice@example.com", "technician",
    ⟨"pw1"⟩, none, true⟩

/-- A concrete office user with a well-formed ObjectId, for concrete
instantiations. -/
def officeUser : StoredUser :=
  ⟨"89abcdef0123456789abcdef", "Olga", "olga@example.com", "office",
    ⟨"pw2"⟩, none, true⟩

lemma countStock_upsertStock (uid sku : String) (q : Int) (t : Nat)
    (st : List StockRow) :
    countStock uid sku (upsertStock uid sku q t st)
      = max 1 (countStock uid sku st) := by
  induction st with
  | nil => simp [upsertStock, countStock]
  | cons r rs ih =>
    by_cases h : r.user_id = uid ∧ r.sku = sku
    · simp [upsertStock, countStock, h]
    · simp [upsertStock, countStock, h, ih]

lemma findStock_upsertStock (uid sku : String) (q : Int) (t : Nat)
    (st : List StockRow) :
    findStock uid sku (upsertStock uid sku q t st)
      = some ⟨uid, sku, max 0 q, t⟩ := by
  induction st with
  | nil => simp [upsertStock, findStock]
  | cons r rs ih =>
    by_cases h : r.user_id = uid ∧ r.sku = sku
    · simp [upsertStock, findStock, h]
    · simp [upsertStock, findStock, h, ih]

lemma upsertStock_nonneg (uid sku : String) (q : Int) (t : Nat)
    (st : List StockRow) (h : ∀ r ∈ st, 0 ≤ r.quantity) :
    ∀ r ∈ upsertStock uid sku q t st, 0 ≤ r.quantity := by
  induction st with
  | nil =>
    intro r hr
    simp [upsertStock] at hr
    simp [hr, le_max_left]
  | cons r0 rs ih =>
    intro r hr
    by_cases hc : r0.user_id = uid ∧ r0.sku = sku
    · simp [upsertStock, hc] at hr
      rcases hr with hr | hr
      · simp [hr, le_max_left]
      · exact h r (by simp [hr])
    · simp [upsertStock, hc] at hr
      rcases hr with hr | hr
      · exact h r (by simp [hr])
      · exact ih (fun x hx => h x (by simp [hx])) r hr

lemma runStockUpdates_eq (caller : StoredUser) (sku : String)
    (calls : List (Int × Nat)) (stock : List StockRow)
    (hrole : caller.role = "technician") :
    runStockUpdates caller sku calls stock
      = calls.foldl (fun s c => upsertStock caller.oid sku c.1 c.2 s) stock := by
  induction calls generalizing stock with
  | nil => rfl
  | cons c rest ih =>
    have hstep : (update_stock caller sku c.1 c.2 stock).2
        = upsertStock caller.oid sku c.1 c.2 stock := by
      simp [update_stock, hrole]
    calc runStockUpdates caller sku (c :: rest) stock
        = runStockUpdates caller sku rest (update_stock caller sku c.1 c.2 stock).2 := rfl
      _ = runStockUpdates caller sku rest (upsertStock caller.oid sku c.1 c.2 stock) := by
          rw [hstep]
      _ = rest.foldl (fun s c => upsertStock caller.oid sku c.1 c.2 s)
            (upsertStock caller.oid sku c.1 c.2 stock) := ih _
      _ = (c :: rest).foldl (fun s c => upsertStock caller.oid sku c.1 c.2 s) stock := rfl

/-- C3: for every technician caller, sku and integer quantity (negative
values included), `update_stock` succeeds without error, the stored quantity
for (caller id, sku) equals `max 0 quantity`, and quantities stay
nonnegative: the written row is nonnegative, and a store of nonnegative
quantities stays nonnegative. -/
theorem c3_update_stock_clamps (caller : StoredUser) (sku : String) (q : Int)
    (t : Nat) (stock : List StockRow) (hrole : caller.role = "technician") :
    (update_stock caller sku q t stock).1 = .ok "ok"
    ∧ findStock caller.oid sku (update_stock caller sku q t stock).2
        = some ⟨caller.oid, sku, max 0 q, t⟩
    ∧ (0 : Int) ≤ max 0 q
    ∧ ((∀ r ∈ stock, 0 ≤ r.quantity) →
        ∀ r ∈ (update_stock caller sku q t stock).2, 0 ≤ r.quantity) := by
  have hr2 : (update_stock caller sku q t stock).2
      = upsertStock caller.oid sku q t stock := by
    simp [update_stock, hrole]
  refine ⟨by simp [update_stock, hrole], ?_, le_max_left 0 q, ?_⟩
  · rw [hr2]
    exact findStock_upsertStock _ _ _ _ _
  · intro hnn
    rw [hr2]
    exact upsertStock_nonneg _ _ _ _ _ hnn

/-- Witness for C3 at a concrete input: the technician user, sku "X" and
quantity -5 store quantity 0. -/
theorem c3_update_stock_clamps_witness :
    techUser.role = "technician"
    ∧ ((update_stock techUser "X" (-5) 0 []).1 = .ok "ok"
      ∧ findStock techUser.oid "X" (update_stock techUser "X" (-5) 0 []).2
          = some ⟨techUser.oid, "X", max 0 (-5), 0⟩) :=
  ⟨by decide,
    (c3_update_stock_clamps techUser "X" (-5) 0 [] (by decide)).1,
    (c3_update_stock_clamps techUser "X" (-5) 0 [] (by decide)).2.1⟩

/-- C8: starting from a store holding at most one row for the pair, any
nonempty sequence of `update_stock` calls by a technician for a fixed
(caller id, sku) pair leaves exactly one stored row for that pair, whose
quantity is the clamp of the most recent call's quantity. -/
theorem c8_update_stock_upsert_key (caller : StoredUser) (sku : String)
    (calls : List (Int × Nat)) (stock : List StockRow) (q : Int) (t : Nat)
    (hrole : caller.role = "technician")
    (hlast : lastCall calls = some (q, t))
    (hcount : countStock caller.oid sku stock ≤ 1) :
    countStock caller.oid sku (runStockUpdates caller sku calls stock) = 1
    ∧ findStock caller.oid sku (runStockUpdates caller sku calls stock)
        = some ⟨caller.oid, sku, max 0 q, t⟩ := by
  rw [runStockUpdates_eq caller sku calls stock hrole]
  clear hrole
  induction calls generalizing stock with
  | nil => simp [lastCall] at hlast
  | cons c rest ih =>
    cases rest with
    | nil =>
      simp [lastCall] at hlast
      simp [List.foldl, hlast, countStock_upsertStock, findStock_upsertStock]
      omega
    | cons c2 cs =>
      have hlast2 : lastCall (c2 :: cs) = some (q, t) := hlast
      have hcount2 : countStock caller.oid sku
          (upsertStock caller.oid sku c.1 c.2 stock) ≤ 1 := by
        rw [countStock_upsertStock]
        omega
      exact ih _ hlast2 hcount2

/-- Witness for C8 at a concrete input: two calls with quantities 7 then 3
leave one row of quantity 3. -/
theorem c8_update_stock_upsert_key_witness :
    techUser.role = "technician"
    ∧ lastCall [((7 : Int), 1), ((3 : Int), 2)] = some (3, 2)
    ∧ countStock techUser.oid "S" [] ≤ 1
    ∧ (countStock techUser.oid "S"
          (runStockUpdates techUser "S" [(7, 1), (3, 2)] []) = 1
      ∧ findStock techUser.oid "S"
          (runStockUpdates techUser "S" [(7, 1), (3, 2)] [])
          = some ⟨techUser.oid, "S", max 0 3, 2⟩) :=
  ⟨by decide, by decide, by decide,
    c8_update_stock_upsert_key techUser "S" [(7, 1), (3, 2)] [] 3 2
      (by decide) (by decide) (by decide)⟩

/-- C9: a technician calling `/stock/overview` fails with Forbidden (403),
and an office user calling `/stock/mine` fails with Forbidden (403); in both
failing cases the stock store is returned unchanged and the response does
not depend on the stored rows at all. -/
theorem c9_role_checks (techU offU : StoredUser) (stock : List StockRow)
    (htech : techU.role = "technician") (hoff : offU.role = "office") :
    stock_overview techU stock
      = (.error (.http 403 "Only office can view all technicians' stock"), stock)
    ∧ (stock_overview techU stock).1 = (stock_overview techU []).1
    ∧ my_stock offU stock
      = (.error (.http 403 "Only technicians have personal stock"), stock)
    ∧ (my_stock offU stock).1 = (my_stock offU []).1 := by
  have h1 : techU.role ≠ "office" := by rw [htech]; decide
  have h2 : offU.role ≠ "technician" := by rw [hoff]; decide
  simp [stock_overview, my_stock, h1, h2]

/-- Witness for C9 at concrete users: both wrong-role requests answer the
403 errors on a concrete store. -/
theorem c9_role_checks_witness :
    techUser.role = "technician"
    ∧ officeUser.role = "office"
    ∧ (stock_overview techUser [⟨"u", "s", 2, 0⟩]
        = (.error (.http 403 "Only office can view all technicians' stock"),
            [⟨"u", "s", 2, 0⟩])
      ∧ my_stock officeUser [⟨"u", "s", 2, 0⟩]
        = (.error (.http 403 "Only technicians have personal stock"),
            [⟨"u", "s", 2, 0⟩])) :=
  ⟨by decide, by decide,
    (c9_role_checks techUser officeUser [⟨"u", "s", 2, 0⟩]
      (by decide) (by decide)).1,
    (c9_role_checks techUser officeUser [⟨"u", "s", 2, 0⟩]
      (by decide) (by decide)).2.2.1⟩

lemma findUserByEmail_mem (e : String) (users : List StoredUser)
    (u : StoredUser) (h : findUserByEmail e users = some u) : u ∈ users := by
  induction users with
  | nil => simp [findUserByEmail] at h
  | cons v vs ih =>
    by_cases hv : v.email = e
    · simp [findUserByEmail, hv] at h
      simp [h]
    · simp [findUserByEmail, hv] at h
      simp [ih h]

lemma findUserById_of_mem (i : String) (users : List StoredUser)
    (hu : ∃ u ∈ users, u.oid = i) :
    ∃ w, findUserById i users = some w ∧ w.oid = i := by
  induction users with
  | nil => simp at hu
  | cons v vs ih =>
    by_cases hv : v.oid = i
    · exact ⟨v, by simp [findUserById, hv], hv⟩
    · rcases hu with ⟨u, hmem, hoid⟩
      rcases List.mem_cons.mp hmem with heq | hmem2
      · exact absurd (heq ▸ hoid) hv
      · rcases ih ⟨u, hmem2, hoid⟩ with ⟨w, hw, hwid⟩
        exact ⟨w, by simp [findUserById, hv, hw], hwid⟩

lemma findUserByEmail_of_count_zero (e : String) (users : List StoredUser)
    (h : countUsersByEmail e users = 0) : findUserByEmail e users = none := by
  induction users with
  | nil => rfl
  | cons v vs ih =>
    by_cases hv : v.email = e
    · simp [countUsersByEmail, hv] at h
    · simp [countUsersByEmail, hv] at h
      simp [findUserByEmail, hv, ih h]

lemma findUserByEmail_append (e : String) (a b : List StoredUser)
    (h : findUserByEmail e a = none) :
    findUserByEmail e (a ++ b) = findUserByEmail e b := by
  induction a with
  | nil => rfl
  | cons v vs ih =>
    by_cases hv : v.email = e
    · simp [findUserByEmail, hv] at h
    · simp [findUserByEmail, hv] at h ⊢
      exact ih h

lemma findUserById_append (i : String) (a b : List StoredUser)
    (h : findUserById i a = none) :
    findUserById i (a ++ b) = findUserById i b := by
  induction a with
  | nil => rfl
  | cons v vs ih =>
    by_cases hv : v.oid = i
    · simp [findUserById, hv] at h
    · simp [findUserById, hv] at h ⊢
      exact ih h

lemma countUsersByEmail_append (e : String) (a b : List StoredUser) :
    countUsersByEmail e (a ++ b)
      = countUsersByEmail e a + countUsersByEmail e b := by
  induction a with
  | nil => simp [countUsersByEmail]
  | cons v vs ih =>
    simp [countUsersByEmail, ih]
    omega

/-- C2: if a user with the email already exists, `register` fails with the
duplicate-email Conflict error and the store is unchanged; on a fresh email
(and a fresh generated id) it succeeds and appends exactly the new user; in
particular registering the same email twice ends with exactly one stored
user for that email and the second call rejected. -/
theorem c2_register_unique_email (inp1 inp2 : RegisterInput) (id1 id2 : String)
    (users : List StoredUser)
    (hemail : inp2.email = inp1.email)
    (hcount : countUsersByEmail inp1.email users = 0)
    (hfresh : findUserById id1 users = none) :
    (∀ inp3 nid, (findUserByEmail inp3.email users).isSome = true →
        register inp3 nid users = (.error conflictEmailExists, users))
    ∧ register inp1 id1 users
        = (.ok (to_public_user (mkUser inp1 id1)), users ++ [mkUser inp1 id1])
    ∧ register inp2 id2 (register inp1 id1 users).2
        = (.error conflictEmailExists, (register inp1 id1 users).2)
    ∧ countUsersByEmail inp1.email (register inp2 id2 (register inp1 id1 users).2).2
        = 1 := by
  have hnone : findUserByEmail inp1.email users = none :=
    findUserByEmail_of_count_zero _ _ hcount
  have hr1 : register inp1 id1 users
      = (.ok (to_public_user (mkUser inp1 id1)), users ++ [mkUser inp1 id1]) := by
    have hfind : findUserById id1 (users ++ [mkUser inp1 id1])
        = some (mkUser inp1 id1) := by
      rw [findUserById_append id1 users [mkUser inp1 id1] hfresh]
      simp [findUserById, mkUser]
    simp [register, hnone, hfind]
  have hfound2 : findUserByEmail inp2.email (users ++ [mkUser inp1 id1])
      = some (mkUser inp1 id1) := by
    rw [hemail, findUserByEmail_append inp1.email users [mkUser inp1 id1] hnone]
    simp [findUserByEmail, mkUser]
  refine ⟨?_, hr1, ?_, ?_⟩
  · intro inp3 nid hdup
    simp [register, Option.isSome_iff_exists] at hdup
    rcases hdup with ⟨u, hu⟩
    simp [register, hu]
  · rw [hr1]
    simp [register, hfound2]
  · rw [hr1]
    simp [register, hfound2]
    rw [countUsersByEmail_append]
    simp [countUsersByEmail, mkUser, hcount]

/-- Witness for C2 at a concrete input: registering the same email twice
from an empty store succeeds then conflicts, leaving one stored user. -/
theorem c2_register_unique_email_witness :
    (let inp : RegisterInput :=
      ⟨"Bob", "bob@example.com", "technician", "secret", none, true⟩;
      register inp "0123456789abcdef01234567" []
        = (.ok (to_public_user (mkUser inp "0123456789abcdef01234567")),
            [mkUser inp "0123456789abcdef01234567"])
      ∧ register inp "0123456789abcdef01234568"
          (register inp "0123456789abcdef01234567" []).2
        = (.error conflictEmailExists,
            (register inp "0123456789abcdef01234567" []).2)
      ∧ countUsersByEmail "bob@example.com"
          (register inp "0123456789abcdef01234568"
            (register inp "0123456789abcdef01234567" []).2).2 = 1) := by
  have h := c2_register_unique_email
    ⟨"Bob", "bob@example.com", "technician", "secret", none, true⟩
    ⟨"Bob", "bob@example.com", "technician", "secret", none, true⟩
    "0123456789abcdef01234567" "0123456789abcdef01234568" []
    (by decide) (by decide) (by decide)
  exact ⟨h.2.1, h.2.2.1, h.2.2.2⟩

/-- C7: login with a wrong password fails with BadRequest whether or not the
email is stored, and login with correct credentials issues a token whose
validation by the auth middleware before expiry resolves to the same user
id that logged in. -/
theorem c7_login_roundtrip (email password : String) (now now2 : Nat)
    (users : List StoredUser) :
    (findUserByEmail email users = none →
      login email password now users
        = .error (.http 400 "Incorrect email or password"))
    ∧ (∀ u, findUserByEmail email users = some u →
        verify_password password u.password_hash = false →
        login email password now users
          = .error (.http 400 "Incorrect email or password"))
    ∧ (∀ u, findUserByEmail email users = some u →
        verify_password password u.password_hash = true →
        isValidObjectId u.oid = true →
        now2 < now + 60 * ACCESS_TOKEN_EXPIRE_MINUTES →
        ∃ tok w, login email password now users = .ok tok
          ∧ get_current_user tok now2 users = .ok w
          ∧ w.oid = u.oid) := by
  refine ⟨?_, ?_, ?_⟩
  · intro hnone
    simp [login, authenticate_user, hnone]
  · intro u hu hbad
    simp [login, authenticate_user, hu, hbad]
  · intro u hu hok hvalid hexp
    have hlogin : login email password now users
        = .ok (create_access_token u.oid now) := by
      simp [login, authenticate_user, hu, hok]
    have hdecode : jwtDecode (create_access_token u.oid now) JWT_SECRET now2
        = some (some u.oid) := by
      simp [create_access_token, jwtDecode, hexp]
    rcases findUserById_of_mem u.oid users
        ⟨u, findUserByEmail_mem email users u hu, rfl⟩ with ⟨w, hw, hwid⟩
    refine ⟨create_access_token u.oid now, w, hlogin, ?_, hwid⟩
    simp [get_current_user, hdecode, hvalid, hw]

/-- Witness for C7 at a concrete store: a wrong password is rejected and the
correct one yields a token that the middleware resolves to the same id. -/
theorem c7_login_roundtrip_witness :
    (findUserByEmail "alice@example.com" [techUser] = some techUser
      ∧ verify_password "wrong" techUser.password_hash = false
      ∧ login "alice@example.com" "wrong" 0 [techUser]
          = .error (.http 400 "Incorrect email or password"))
    ∧ (verify_password "pw1" techUser.password_hash = true
      ∧ isValidObjectId techUser.oid = true
      ∧ (5 : Nat) < 0 + 60 * ACCESS_TOKEN_EXPIRE_MINUTES
      ∧ ∃ tok w, login "alice@example.com" "pw1" 0 [techUser] = .ok tok
          ∧ get_current_user tok 5 [techUser] = .ok w
          ∧ w.oid = techUser.oid) :=
  ⟨⟨by decide, by decide,
    (c7_login_roundtrip "alice@example.com" "wrong" 0 5 [techUser]).2.1
      techUser (by decide) (by decide)⟩,
   ⟨by decide, by decide, by decide,
    (c7_login_roundtrip "alice@example.com" "pw1" 0 5 [techUser]).2.2
      techUser (by decide) (by decide) (by decide) (by decide)⟩⟩

/-- C1 counterexample: a token with a valid signature, unexpired, whose
subject is not a well-formed ObjectId makes the bearer-protected `/auth/me`
request die with an unhandled exception (`ObjectId(user_id)` is evaluated
outside the try/except at src/main.py line 96), not with the Unauthorized
(401) response the claim requires. -/
theorem c1_counterexample :
    me_route (Token.signed (some "not-an-objectid") 100 JWT_SECRET) 0 []
      = .error HErr.crash
    ∧ HErr.crash ≠ credentials_exception := by
  decide

/-- C1 amended: a bearer-protected request fails with Unauthorized (401)
exactly when the token does not decode (bad signature, expired or garbage),
decodes without a subject, or carries a well-formed ObjectId subject that
resolves to no stored user; every protected route propagates that failure
with its store untouched.  (A decodable token whose subject is not a
well-formed ObjectId instead raises an unhandled exception, per the
counterexample.) -/
theorem c1_auth_unauthorized (tok : Token) (now : Nat)
    (users : List StoredUser) (sku : String) (q : Int) (t : Nat)
    (maxItems : Nat) (fo : FetchOutcome) (tc : Nat) (cat : List InvRec)
    (stock : List StockRow) :
    (get_current_user tok now users = .error credentials_exception ↔
      (jwtDecode tok JWT_SECRET now = none
        ∨ jwtDecode tok JWT_SECRET now = some none
        ∨ ∃ uid, jwtDecode tok JWT_SECRET now = some (some uid)
            ∧ isValidObjectId uid = true ∧ findUserById uid users = none))
    ∧ (∀ e, get_current_user tok now users = .error e →
        me_route tok now users = .error e
        ∧ my_stock_route tok now users stock = (.error e, stock)
        ∧ update_stock_route tok now users sku q t stock = (.error e, stock)
        ∧ stock_overview_route tok now users stock = (.error e, stock)
        ∧ inventory_scrape_route tok now users maxItems fo tc cat
            = (.error e, cat)) := by
  constructor
  · cases hd : jwtDecode tok JWT_SECRET now with
    | none => simp [get_current_user, hd]
    | some osub =>
      cases osub with
      | none => simp [get_current_user, hd]
      | some uid =>
        by_cases hv : isValidObjectId uid = true
        · cases hf : findUserById uid users with
          | none => simp [get_current_user, hd, hv, hf]
          | some u => simp [get_current_user, hd, hv, hf]
        · simp [get_current_user, hd, hv, credentials_exception]
  · intro e he
    refine ⟨?_, ?_, ?_, ?_, ?_⟩ <;>
      simp [me_route, my_stock_route, update_stock_route,
        stock_overview_route, inventory_scrape_route, he]

/-- Witness for C1 amended at a concrete input: an undecodable token is
answered 401 by the middleware and by the protected routes. -/
theorem c1_auth_unauthorized_witness :
    get_current_user Token.malformed 0 [] = .error credentials_exception
    ∧ me_route Token.malformed 0 [] = .error credentials_exception
    ∧ my_stock_route Token.malformed 0 [] [] = (.error credentials_exception, []) := by
  have h := c1_auth_unauthorized Token.malformed 0 [] "s" 1 0 5
    FetchOutcome.netError 0 [] []
  have hu : get_current_user Token.malformed 0 [] = .error credentials_exception :=
    h.1.mpr (Or.inl rfl)
  exact ⟨hu, (h.2 _ hu).1, (h.2 _ hu).2.1⟩

/-- C5 counterexample: a fetch that answers with status 204 — a 2xx status —
is rejected with BadRequest by `inventory_scrape` (the code tests
`status_code != 200`, src/main.py line 167), contradicting the claim that
any 2xx status is treated as a successful fetch. -/
theorem c5_counterexample :
    (200 ≤ 204 ∧ 204 < 300)
    ∧ inventory_scrape officeUser 10
        (.response 204 (some [⟨"SKU1", "Item one"⟩])) 0 []
      = (.error (.http 400 "Cannot fetch supplier page"), []) := by
  decide

/-- C5 amended: for every office-authorized scrape request, a fetch
returning status exactly 200 is treated as successful; any other status
(other 2xx statuses included), a network failure, or a parse failure fails
with BadRequest carrying only a generic message, and in every failing case
the inventory catalog is unchanged. -/
theorem c5_scrape_failure (caller : StoredUser) (maxItems : Nat) (t : Nat)
    (cat : List InvRec) (hrole : caller.role = "office") :
    inventory_scrape caller maxItems .netError t cat
      = (.error (.http 400 "Failed to parse supplier page"), cat)
    ∧ (∀ status parsed, status ≠ 200 →
        inventory_scrape caller maxItems (.response status parsed) t cat
          = (.error (.http 400 "Cannot fetch supplier page"), cat))
    ∧ inventory_scrape caller maxItems (.response 200 none) t cat
        = (.error (.http 400 "Failed to parse supplier page"), cat)
    ∧ (∀ items,
        inventory_scrape caller maxItems (.response 200 (some items)) t cat
          = (.ok ("ok", (items.take maxItems).length),
              syncProducts (items.take maxItems) t cat)) := by
  refine ⟨?_, ?_, ?_, ?_⟩
  · simp [inventory_scrape, hrole]
  · intro status parsed hst
    simp [inventory_scrape, hrole, hst]
  · simp [inventory_scrape, hrole]
  · intro items
    simp [inventory_scrape, hrole]

/-- Witness for C5 amended at concrete inputs: a network failure and a 500
status are both rejected with the generic 400 messages and leave the
catalog empty. -/
theorem c5_scrape_failure_witness :
    officeUser.role = "office"
    ∧ inventory_scrape officeUser 10 .netError 0 []
        = (.error (.http 400 "Failed to parse supplier page"), [])
    ∧ inventory_scrape officeUser 10 (.response 500 none) 0 []
        = (.error (.http 400 "Cannot fetch supplier page"), []) :=
  ⟨by decide,
    (c5_scrape_failure officeUser 10 0 [] (by decide)).1,
    (c5_scrape_failure officeUser 10 0 [] (by decide)).2.1 500 none (by decide)⟩

lemma countWO_upsertWO (oid doneAt : String) (wos : List WorkOrderRec) :
    countWO oid (upsertWO oid doneAt wos) = max 1 (countWO oid wos) := by
  induction wos with
  | nil => simp [upsertWO, countWO, mkWO]
  | cons r rs ih =>
    by_cases h : r.order_id = oid
    · simp [upsertWO, countWO, setWO, h]
    · simp [upsertWO, countWO, h, ih]

lemma findWO_upsertWO (oid doneAt : String) (wos : List WorkOrderRec) :
    ∃ r, findWO oid (upsertWO oid doneAt wos) = some r
      ∧ r.order_id = oid ∧ r.status = "completed"
      ∧ r.completed_at = some doneAt := by
  induction wos with
  | nil => exact ⟨mkWO oid doneAt, by simp [upsertWO, findWO, mkWO], rfl, rfl, rfl⟩
  | cons r rs ih =>
    by_cases h : r.order_id = oid
    · exact ⟨setWO doneAt r, by simp [upsertWO, findWO, setWO, h], h, rfl, rfl⟩
    · rcases ih with ⟨w, hw, hprops⟩
      exact ⟨w, by simp [upsertWO, findWO, h, hw], hprops⟩

lemma hasWO_eq_false_iff_countWO (oid : String) (wos : List WorkOrderRec) :
    hasWO oid wos = false ↔ countWO oid wos = 0 := by
  induction wos with
  | nil => simp [hasWO, countWO]
  | cons r rs ih =>
    by_cases h : r.order_id = oid
    · simp [hasWO, countWO, h]
    · simp [hasWO, countWO, h, ih]

lemma upsertWO_not_found (oid doneAt : String) (wos : List WorkOrderRec)
    (h : hasWO oid wos = false) :
    upsertWO oid doneAt wos = wos ++ [mkWO oid doneAt] := by
  induction wos with
  | nil => rfl
  | cons r rs ih =>
    simp [hasWO] at h
    simp [upsertWO, h.1, ih h.2]

lemma length_upsertWO (oid doneAt : String) (wos : List WorkOrderRec) :
    (upsertWO oid doneAt wos).length
      = if hasWO oid wos then wos.length else wos.length + 1 := by
  induction wos with
  | nil => simp [upsertWO, hasWO]
  | cons r rs ih =>
    by_cases h : r.order_id = oid
    · simp [upsertWO, hasWO, h]
    · simp [upsertWO, hasWO, h, ih]
      by_cases h2 : hasWO oid rs <;> simp [h2]

lemma hasWO_upsertWO_self (oid doneAt : String) (wos : List WorkOrderRec) :
    hasWO oid (upsertWO oid doneAt wos) = true := by
  induction wos with
  | nil => simp [upsertWO, hasWO, mkWO]
  | cons r rs ih =>
    by_cases h : r.order_id = oid
    · simp [upsertWO, hasWO, setWO, h]
    · simp [upsertWO, hasWO, h, ih]

lemma map_woView_upsertWO (oid doneAt : String) (wos : List WorkOrderRec) :
    (upsertWO oid doneAt wos).map woView
      = wos.map woView
        ++ (if hasWO oid wos then [] else [(oid, none, none)]) := by
  induction wos with
  | nil => simp [upsertWO, hasWO, mkWO, woView]
  | cons r rs ih =>
    by_cases h : r.order_id = oid
    · simp [upsertWO, hasWO, setWO, woView, h]
    · simp [upsertWO, hasWO, woView, h, ih]

/-- C6 counterexample: a payload whose `completed_at` is present but is the
empty string is stored with the server time, not the supplied value —
`payload.completed_at or now` treats the empty string as absent. -/
theorem c6_counterexample :
    (⟨"ORD-1", none, "done", some ""⟩ : RouteCompletion).completed_at = some ""
    ∧ (optimoroute_webhook ⟨"ORD-1", none, "done", some ""⟩
        "2024-05-01T00:00:00" []).2
      = [⟨"ORD-1", none, "completed", some "2024-05-01T00:00:00", none⟩]
    ∧ ("2024-05-01T00:00:00" : String) ≠ "" := by
  decide

/-- C6 amended: the webhook upserts the work order keyed by `order_id` — a
first call for an unknown id creates the record with status completed, and a
later call for the same id updates that record's timestamp without creating
a second record — storing `completed_at` as the supplied value when present
and non-empty, else the current server time, and always answering success. -/
theorem c6_webhook_upsert (p p2 : RouteCompletion) (nowIso now2 : String)
    (wos : List WorkOrderRec) :
    (optimoroute_webhook p nowIso wos).1 = .ok "ok"
    ∧ countWO p.order_id (optimoroute_webhook p nowIso wos).2
        = max 1 (countWO p.order_id wos)
    ∧ (∃ r, findWO p.order_id (optimoroute_webhook p nowIso wos).2 = some r
        ∧ r.status = "completed"
        ∧ r.completed_at = some (orDefault p.completed_at nowIso))
    ∧ (countWO p.order_id wos = 0 →
        (optimoroute_webhook p nowIso wos).2
          = wos ++ [mkWO p.order_id (orDefault p.completed_at nowIso)])
    ∧ (p2.order_id = p.order_id →
        ((optimoroute_webhook p2 now2 (optimoroute_webhook p nowIso wos).2).2).length
          = ((optimoroute_webhook p nowIso wos).2).length
        ∧ ∃ r2, findWO p.order_id
            (optimoroute_webhook p2 now2 (optimoroute_webhook p nowIso wos).2).2
            = some r2
          ∧ r2.completed_at = some (orDefault p2.completed_at now2)) := by
  refine ⟨rfl, countWO_upsertWO _ _ _, ?_, ?_, ?_⟩
  · rcases findWO_upsertWO p.order_id (orDefault p.completed_at nowIso) wos
      with ⟨r, hr, _, hst, hca⟩
    exact ⟨r, hr, hst, hca⟩
  · intro h0
    exact upsertWO_not_found _ _ _ ((hasWO_eq_false_iff_countWO _ _).mpr h0)
  · intro hsame
    constructor
    · show (upsertWO p2.order_id (orDefault p2.completed_at now2)
          (upsertWO p.order_id (orDefault p.completed_at nowIso) wos)).length = _
      rw [hsame, length_upsertWO, hasWO_upsertWO_self]
      simp
      rfl
    · rw [show (optimoroute_webhook p2 now2 (optimoroute_webhook p nowIso wos).2).2
          = upsertWO p2.order_id (orDefault p2.completed_at now2)
              (upsertWO p.order_id (orDefault p.completed_at nowIso) wos) from rfl,
        hsame]
      rcases findWO_upsertWO p.order_id (orDefault p2.completed_at now2)
          (upsertWO p.order_id (orDefault p.completed_at nowIso) wos)
        with ⟨r2, hr2, _, _, hca2⟩
      exact ⟨r2, hr2, hca2⟩

/-- Witness for C6 amended at concrete inputs: a first webhook call creates
the record, a second call with a different timestamp updates it in place. -/
theorem c6_webhook_upsert_witness :
    countWO "ORD-2" [] = 0
    ∧ ((⟨"ORD-2", none, "y", some "T2"⟩ : RouteCompletion).order_id
        = (⟨"ORD-2", none, "x", some "T1"⟩ : RouteCompletion).order_id)
    ∧ (optimoroute_webhook ⟨"ORD-2", none, "x", some "T1"⟩ "N1" []).2
        = [] ++ [mkWO "ORD-2" (orDefault (some "T1") "N1")]
    ∧ ((optimoroute_webhook ⟨"ORD-2", none, "y", some "T2"⟩ "N2"
          (optimoroute_webhook ⟨"ORD-2", none, "x", some "T1"⟩ "N1" []).2).2).length
        = ((optimoroute_webhook ⟨"ORD-2", none, "x", some "T1"⟩ "N1" []).2).length
    ∧ (∃ r2, findWO "ORD-2"
          ((optimoroute_webhook ⟨"ORD-2", none, "y", some "T2"⟩ "N2"
            (optimoroute_webhook ⟨"ORD-2", none, "x", some "T1"⟩ "N1" []).2).2)
          = some r2
        ∧ r2.completed_at = some (orDefault (some "T2") "N2")) := by
  have h := c6_webhook_upsert ⟨"ORD-2", none, "x", some "T1"⟩
    ⟨"ORD-2", none, "y", some "T2"⟩ "N1" "N2" []
  exact ⟨by decide, by decide, h.2.2.2.1 (by decide),
    (h.2.2.2.2 (by decide)).1, (h.2.2.2.2 (by decide)).2⟩

/-- C10: the webhook writes only `status` and `completed_at` (plus
`order_id` as the upsert key): the payload's `technician_email` is ignored,
the untouched fields of every stored record survive unchanged, the stored
status is "completed" whatever the payload's `status` says, and a record
created by the webhook has no `technician_id` field although the `WorkOrder`
schema declares `technician_id` required — the created record fails the
schema predicate. -/
theorem c10_webhook_frame (p : RouteCompletion) (e2 : Option String)
    (nowIso : String) (wos : List WorkOrderRec) :
    optimoroute_webhook ⟨p.order_id, e2, p.status, p.completed_at⟩ nowIso wos
      = optimoroute_webhook p nowIso wos
    ∧ ((optimoroute_webhook p nowIso wos).2).map woView
        = wos.map woView
          ++ (if hasWO p.order_id wos then [] else [(p.order_id, none, none)])
    ∧ (∃ r, findWO p.order_id (optimoroute_webhook p nowIso wos).2 = some r
        ∧ r.status = "completed")
    ∧ (hasWO p.order_id wos = false →
        (optimoroute_webhook p nowIso wos).2
          = wos ++ [mkWO p.order_id (orDefault p.completed_at nowIso)]
        ∧ (mkWO p.order_id (orDefault p.completed_at nowIso)).technician_id = none
        ∧ workOrderSchemaOk (mkWO p.order_id (orDefault p.completed_at nowIso))
            = false) := by
  refine ⟨rfl, map_woView_upsertWO _ _ _, ?_, ?_⟩
  · rcases findWO_upsertWO p.order_id (orDefault p.completed_at nowIso) wos
      with ⟨r, hr, _, hst, _⟩
    exact ⟨r, hr, hst⟩
  · intro h
    exact ⟨upsertWO_not_found _ _ _ h, rfl, rfl⟩

/-- Witness for C10 at a concrete input: on an empty store a payload with
status "whatever" creates a schema-invalid record without technician id. -/
theorem c10_webhook_frame_witness :
    hasWO "ORD-3" [] = false
    ∧ ((optimoroute_webhook ⟨"ORD-3", some "tech@example.com", "whatever", none⟩
          "NOW" []).2
        = [] ++ [mkWO "ORD-3" (orDefault none "NOW")]
      ∧ (mkWO "ORD-3" (orDefault none "NOW")).technician_id = none
      ∧ workOrderSchemaOk (mkWO "ORD-3" (orDefault none "NOW")) = false) :=
  ⟨by decide,
    (c10_webhook_frame ⟨"ORD-3", some "tech@example.com", "whatever", none⟩
      none "NOW" []).2.2.2 (by decide)⟩

lemma syncProducts_cons (i : ScrapedItem) (items : List ScrapedItem) (t : Nat)
    (c : List InvRec) :
    syncProducts (i :: items) t c = syncProducts items t (upsertInv i t c) := rfl

lemma hasSku_upsertInv_self (it : ScrapedItem) (t : Nat) (c : List InvRec) :
    hasSku it.sku (upsertInv it t c) = true := by
  induction c with
  | nil => simp [upsertInv, hasSku, mkInv]
  | cons r rs ih =>
    by_cases hr : r.sku = it.sku
    · simp [upsertInv, hr, hasSku, setInv]
    · simp [upsertInv, hr, hasSku, ih]

lemma hasSku_upsertInv_mono (s : String) (it : ScrapedItem) (t : Nat)
    (c : List InvRec) (h : hasSku s c = true) :
    hasSku s (upsertInv it t c) = true := by
  induction c with
  | nil => simp [hasSku] at h
  | cons r rs ih =>
    simp only [hasSku, Bool.or_eq_true, beq_iff_eq] at h
    simp only [upsertInv]
    by_cases hr : r.sku = it.sku
    · rw [if_pos hr]
      simp only [hasSku, Bool.or_eq_true, beq_iff_eq, setInv]
      rcases h with h | h
      · exact Or.inl (hr ▸ h)
      · exact Or.inr h
    · rw [if_neg hr]
      simp only [hasSku, Bool.or_eq_true, beq_iff_eq]
      rcases h with h | h
      · exact Or.inl h
      · exact Or.inr (ih h)

lemma hasSku_syncProducts_mono (s : String) (items : List ScrapedItem)
    (t : Nat) :
    ∀ c, hasSku s c = true → hasSku s (syncProducts items t c) = true := by
  induction items with
  | nil => intro c h; exact h
  | cons i rest ih =>
    intro c h
    rw [syncProducts_cons]
    exact ih _ (hasSku_upsertInv_mono s i t c h)

lemma upsertInv_overwrite (i j : ScrapedItem) (t1 t2 : Nat)
    (h : j.sku = i.sku) (c : List InvRec) :
    upsertInv j t2 (upsertInv i t1 c) = upsertInv j t2 c := by
  induction c with
  | nil => simp [upsertInv, mkInv, setInv, h]
  | cons r rs ih =>
    by_cases hr : r.sku = i.sku
    · simp [upsertInv, hr, setInv, h]
    · have hrj : ¬ r.sku = j.sku := by rw [h]; exact hr
      simp [upsertInv, hr, hrj, ih]

lemma upsertInv_comm (i j : ScrapedItem) (t1 t2 : Nat) (c : List InvRec)
    (hne : i.sku ≠ j.sku) (hmem : hasSku i.sku c = true) :
    upsertInv j t2 (upsertInv i t1 c) = upsertInv i t1 (upsertInv j t2 c) := by
  induction c with
  | nil => simp [hasSku] at hmem
  | cons r rs ih =>
    by_cases hri : r.sku = i.sku
    · have hrj : ¬ r.sku = j.sku := by rw [hri]; exact hne
      simp [upsertInv, hri, hrj, setInv, hne]
    · by_cases hrj : r.sku = j.sku
      · simp [upsertInv, hri, hrj, setInv, Ne.symm hne]
      · have hmem2 : hasSku i.sku rs = true := by
          simpa [hasSku, hri] using hmem
        simp [upsertInv, hri, hrj, ih hmem2]

lemma FixedFor_noop (i : ScrapedItem) (t : Nat) (c : List InvRec)
    (h : FixedFor i t c) : upsertInv i t c = c := by
  induction c with
  | nil => simp [FixedFor] at h
  | cons r rs ih =>
    by_cases hr : r.sku = i.sku
    · have hset : setInv i t r = r := by
        simp only [FixedFor] at h
        rwa [if_pos hr] at h
      simp [upsertInv, hr, hset]
    · have h2 : FixedFor i t rs := by
        simp only [FixedFor] at h
        rwa [if_neg hr] at h
      simp [upsertInv, hr, ih h2]

lemma FixedFor_upsertInv (i : ScrapedItem) (t : Nat) (c : List InvRec) :
    FixedFor i t (upsertInv i t c) := by
  induction c with
  | nil => simp [upsertInv, FixedFor, mkInv, setInv]
  | cons r rs ih =>
    by_cases hr : r.sku = i.sku
    · simp [upsertInv, hr, FixedFor, setInv]
    · simp [upsertInv, hr, FixedFor, ih]

lemma FixedFor_upsertInv_pres (i j : ScrapedItem) (t t2 : Nat)
    (c : List InvRec) (hne : j.sku ≠ i.sku) (h : FixedFor i t c) :
    FixedFor i t (upsertInv j t2 c) := by
  induction c with
  | nil => simp [FixedFor] at h
  | cons r rs ih =>
    by_cases hrj : r.sku = j.sku
    · have hri : ¬ r.sku = i.sku := by rw [hrj]; exact hne
      have h2 : FixedFor i t rs := by
        simp only [FixedFor] at h
        rwa [if_neg hri] at h
      simp [upsertInv, hrj, FixedFor, setInv, hne, h2]
    · by_cases hri : r.sku = i.sku
      · have hset : setInv i t r = r := by
          simp only [FixedFor] at h
          rwa [if_pos hri] at h
        simp [upsertInv, hrj, FixedFor, hri, hset, Ne.symm hne]
      · have h2 : FixedFor i t rs := by
          simp only [FixedFor] at h
          rwa [if_neg hri] at h
        simp [upsertInv, hrj, FixedFor, hri, ih h2]

lemma FixedFor_syncProducts (i : ScrapedItem) (t t2 : Nat)
    (items : List ScrapedItem) :
    ∀ c, (∀ j ∈ items, j.sku ≠ i.sku) → FixedFor i t c →
      FixedFor i t (syncProducts items t2 c) := by
  induction items with
  | nil => intro c _ h; exact h
  | cons j rest ih =>
    intro c hall h
    rw [syncProducts_cons]
    exact ih _ (fun x hx => hall x (List.mem_cons_of_mem _ hx))
      (FixedFor_upsertInv_pres i j t t2 c (hall j (List.mem_cons_self _ _)) h)

lemma syncProducts_upsertInv_absorb (i : ScrapedItem) (t : Nat)
    (rest : List ScrapedItem) :
    ∀ c, (∃ j ∈ rest, j.sku = i.sku) → hasSku i.sku c = true →
      syncProducts rest t (upsertInv i t c) = syncProducts rest t c := by
  induction rest with
  | nil => intro c hj _; simp at hj
  | cons j rest ih =>
    intro c hj hmem
    rw [syncProducts_cons, syncProducts_cons]
    by_cases hji : j.sku = i.sku
    · rw [upsertInv_overwrite i j t t hji c]
    · have hne : i.sku ≠ j.sku := fun he => hji he.symm
      rw [upsertInv_comm i j t t c hne hmem]
      have hj2 : ∃ j2 ∈ rest, j2.sku = i.sku := by
        rcases hj with ⟨j2, hmem2, hsku⟩
        rcases List.mem_cons.mp hmem2 with h2 | h2
        · exact absurd (h2 ▸ hsku) hji
        · exact ⟨j2, h2, hsku⟩
      exact ih _ hj2 (hasSku_upsertInv_mono _ _ _ _ hmem)

lemma syncProducts_idem (items : List ScrapedItem) (t : Nat) :
    ∀ c, syncProducts items t (syncProducts items t c) = syncProducts items t c := by
  induction items with
  | nil => intro c; rfl
  | cons i rest ih =>
    intro c
    rw [syncProducts_cons, syncProducts_cons]
    by_cases hj : ∃ j ∈ rest, j.sku = i.sku
    · have hmem : hasSku i.sku (syncProducts rest t (upsertInv i t c)) = true :=
        hasSku_syncProducts_mono _ _ _ _ (hasSku_upsertInv_self i t c)
      calc syncProducts rest t
            (upsertInv i t (syncProducts rest t (upsertInv i t c)))
          = syncProducts rest t (syncProducts rest t (upsertInv i t c)) :=
            syncProducts_upsertInv_absorb i t rest _ hj hmem
        _ = syncProducts rest t (upsertInv i t c) := ih _
    · push_neg at hj
      have hfx : FixedFor i t (syncProducts rest t (upsertInv i t c)) :=
        FixedFor_syncProducts i t t rest _ hj (FixedFor_upsertInv i t c)
      rw [FixedFor_noop _ _ _ hfx]
      exact ih _

lemma stripCat_upsertInv (it : ScrapedItem) (t : Nat) (c : List InvRec) :
    stripCat (upsertInv it t c) = upsertInv it 0 (stripCat c) := by
  induction c with
  | nil => rfl
  | cons r rs ih =>
    by_cases hr : r.sku = it.sku
    · simp [upsertInv, stripCat, hr, stripInvRec, setInv]
    · have ih2 : List.map stripInvRec (upsertInv it t rs)
          = upsertInv it 0 (List.map stripInvRec rs) := ih
      simp [upsertInv, stripCat, hr, stripInvRec, ih2]

lemma stripCat_syncProducts (items : List ScrapedItem) (t : Nat) :
    ∀ c, stripCat (syncProducts items t c) = syncProducts items 0 (stripCat c) := by
  induction items with
  | nil => intro c; rfl
  | cons i rest ih =>
    intro c
    rw [syncProducts_cons, syncProducts_cons, ih, stripCat_upsertInv]

/-- C4: running the office-authorized scrape-sync twice against identical
page content (the same extracted product list — the extraction is
deterministic in the page text) yields the same final catalog: the second
run creates no record for any SKU (catalog length unchanged) and, with the
server-side `updated_at` timestamps erased, the catalog is identical after
the second run. -/
theorem c4_scrape_sync_idempotent (caller : StoredUser) (maxItems : Nat)
    (items : List ScrapedItem) (t1 t2 : Nat) (cat : List InvRec)
    (hrole : caller.role = "office") :
    (inventory_scrape caller maxItems (.response 200 (some items)) t1 cat).1
      = .ok ("ok", (items.take maxItems).length)
    ∧ (inventory_scrape caller maxItems (.response 200 (some items)) t2
        (inventory_scrape caller maxItems (.response 200 (some items)) t1 cat).2).1
      = .ok ("ok", (items.take maxItems).length)
    ∧ ((inventory_scrape caller maxItems (.response 200 (some items)) t2
        (inventory_scrape caller maxItems (.response 200 (some items)) t1 cat).2).2).length
      = ((inventory_scrape caller maxItems (.response 200 (some items)) t1 cat).2).length
    ∧ stripCat ((inventory_scrape caller maxItems (.response 200 (some items)) t2
        (inventory_scrape caller maxItems (.response 200 (some items)) t1 cat).2).2)
      = stripCat ((inventory_scrape caller maxItems (.response 200 (some items)) t1 cat).2) := by
  have hrun : ∀ (t : Nat) (c : List InvRec),
      inventory_scrape caller maxItems (.response 200 (some items)) t c
        = (.ok ("ok", (items.take maxItems).length),
            syncProducts (items.take maxItems) t c) := by
    intro t c
    simp [inventory_scrape, hrole]
  have hstrip : stripCat (syncProducts (items.take maxItems) t2
        (syncProducts (items.take maxItems) t1 cat))
      = stripCat (syncProducts (items.take maxItems) t1 cat) := by
    rw [stripCat_syncProducts, stripCat_syncProducts]
    exact syncProducts_idem _ 0 _
  have hlen := congrArg List.length hstrip
  simp only [stripCat, List.length_map] at hlen
  simp only [hrun]
  exact ⟨trivial, trivial, hlen, hstrip⟩

/-- Witness for C4 at a concrete input: a product list with a repeated SKU,
synced twice at different server times, leaves the catalog unchanged up to
timestamps and of equal size. -/
theorem c4_scrape_sync_idempotent_witness :
    officeUser.role = "office"
    ∧ ((inventory_scrape officeUser 10
          (.response 200 (some [⟨"A", "prod A"⟩, ⟨"B", "prod B"⟩, ⟨"A", "prod A again"⟩])) 1 []).1
        = .ok ("ok", 3)
      ∧ ((inventory_scrape officeUser 10
          (.response 200 (some [⟨"A", "prod A"⟩, ⟨"B", "prod B"⟩, ⟨"A", "prod A again"⟩])) 2
          (inventory_scrape officeUser 10
            (.response 200 (some [⟨"A", "prod A"⟩, ⟨"B", "prod B"⟩, ⟨"A", "prod A again"⟩])) 1 []).2).2).length
        = ((inventory_scrape officeUser 10
            (.response 200 (some [⟨"A", "prod A"⟩, ⟨"B", "prod B"⟩, ⟨"A", "prod A again"⟩])) 1 []).2).length
      ∧ stripCat ((inventory_scrape officeUser 10
          (.response 200 (some [⟨"A", "prod A"⟩, ⟨"B", "prod B"⟩, ⟨"A", "prod A again"⟩])) 2
          (inventory_scrape officeUser 10
            (.response 200 (some [⟨"A", "prod A"⟩, ⟨"B", "prod B"⟩, ⟨"A", "prod A again"⟩])) 1 []).2).2)
        = stripCat ((inventory_scrape officeUser 10
            (.response 200 (some [⟨"A", "prod A"⟩, ⟨"B", "prod B"⟩, ⟨"A", "prod A again"⟩])) 1 []).2)) := by
  have h := c4_scrape_sync_idempotent officeUser 10
    [⟨"A", "prod A"⟩, ⟨"B", "prod B"⟩, ⟨"A", "prod A again"⟩] 1 2 [] (by decide)
  exact ⟨by decide, h.1, h.2.2.1, h.2.2.2⟩

end FieldStock
